import Mathlib

/-!
Verification of the skip-duplicate-actions decision engine.

The definitions below are a shallow embedding of the TypeScript sources:
the current engine in src/main.ts (class SkipDuplicateActions together
with the run listing done in its main function), and the earlier engine
in src/index.ts (namespace Legacy below), which is the version that
contains the hard-failure propagation for failed duplicate runs.

External collaborators are parameters of the embedding:
the glob matcher micromatch is a function mm : String -> List String -> Bool
telling whether one file path matches a pattern list, and the remote commit
store behind octokit.rest.repos.getCommit is a function
store : String -> Option Commit, where a failed fetch is modelled as none.
-/

namespace SkipDup

/-- Trigger events accepted by the zod schema WorkflowRunTriggerType. -/
inductive WorkflowRunTrigger
  | pull_request
  | push
  | workflow_dispatch
  | schedule
  | release
deriving DecidableEq, Repr

/-- Run status values of WorkflowRunStatusType. -/
inductive WorkflowRunStatus
  | queued
  | in_progress
  | completed
deriving DecidableEq, Repr

/-- Run conclusion values of WorkflowRunConclusionType. -/
inductive WorkflowRunConclusion
  | success
  | failure
  | neutral
  | cancelled
  | skipped
  | timed_out
deriving DecidableEq, Repr

/-- The WorkflowRun record produced by mapWorkflowRun in src/main.ts.
createdAt is the epoch-millisecond value of the created_at timestamp,
since the source only ever compares new Date(createdAt).getTime(). -/
structure WorkflowRun where
  id : Nat
  runNumber : Nat
  event : WorkflowRunTrigger
  treeHash : String
  commitHash : String
  status : Option WorkflowRunStatus
  conclusion : Option WorkflowRunConclusion
  branch : Option String
  repo : Option String
  workflowId : Nat
  createdAt : Nat
deriving DecidableEq, Repr

/-- A commit as returned by the getCommit endpoint: its tree sha, the shas
of its parents, and the changed file names (absent for some commits). -/
structure Commit where
  treeSha : String
  parents : List String
  files : Option (List String)
deriving DecidableEq, Repr

/-- The backtracking field of a paths filter:
z.union of a boolean and a number. -/
inductive Backtracking
  | bool (b : Bool)
  | num (n : Int)
deriving DecidableEq, Repr

/-- One entry of the paths_filter record, keyed by its name. -/
structure FilterCfg where
  name : String
  paths_ignore : List String
  paths : List String
  backtracking : Backtracking
deriving DecidableEq, Repr

/-- Per-filter state kept by the PathsResult class: should_skip is null
while the filter is unresolved. -/
structure FilterState where
  should_skip : Option Bool
  backtrack_count : Nat
  skipped_by : Option WorkflowRun
  matched_files : Option (List String)
deriving DecidableEq, Repr

/-- State every filter starts from: addFilter writes
should_skip null and backtrack_count 0. -/
def initialFilterState : FilterState :=
  { should_skip := none, backtrack_count := 0, skipped_by := none, matched_files := none }

/-- The concurrent_skipping policy enum. -/
inductive ConcurrentSkipping
  | always
  | same_content
  | same_content_newer
  | outdated_runs
  | never
deriving DecidableEq, Repr

/-- Validated action inputs (InputsType in src/main.ts). The paths_filter
record is kept as a list of named entries in insertion order. -/
structure Inputs where
  paths : List String
  paths_ignore : List String
  paths_filter : List FilterCfg
  do_not_skip : List WorkflowRunTrigger
  concurrent_skipping : ConcurrentSkipping
  cancel_others : Bool
  skip_after_successful_duplicates : Bool

/-- The Context handed to SkipDuplicateActions: the current run, the other
runs of the same workflow, the strictly older subset, and the artifact
lookup artifactRuns.get(run)?.t giving the memoized merge-commit tree hash
of pull-request runs. -/
structure Context where
  currentRun : WorkflowRun
  allRuns : List WorkflowRun
  olderRuns : List WorkflowRun
  artifactT : WorkflowRun → Option String

/-- The olderRuns list built in main: runs created strictly before the
current run. -/
def computeOlderRuns (currentRun : WorkflowRun) (runs : List WorkflowRun) : List WorkflowRun :=
  runs.filter (fun r => decide (r.createdAt < currentRun.createdAt))

/-- Effective tree hash of a run, as used on both sides of the comparison
in findSuccessfulDuplicateRun and in run: for a pull_request run the
artifact value artifactRuns.get(run)?.t, otherwise the treeHash field. -/
def effectiveTreeHash (ctx : Context) (run : WorkflowRun) : Option String :=
  if run.event = WorkflowRunTrigger.pull_request then ctx.artifactT run else some run.treeHash

/-- findSuccessfulDuplicateRun of src/main.ts: among the older runs, the
first whose effective tree hash equals the given one and which is
completed with conclusion success. The falsy guard on the argument
covers both undefined and the empty string. -/
def findSuccessfulDuplicateRun (ctx : Context) (treeHash : Option String) : Option WorkflowRun :=
  match treeHash with
  | none => none
  | some th =>
    if th = "" then none
    else
      ctx.olderRuns.find? (fun run =>
        decide (effectiveTreeHash ctx run = some th ∧
          run.status = some WorkflowRunStatus.completed ∧
          run.conclusion = some WorkflowRunConclusion.success))

/-- detectConcurrentRuns of src/main.ts. -/
def detectConcurrentRuns (inputs : Inputs) (ctx : Context) : Option WorkflowRun :=
  let concurrentRuns := ctx.allRuns.filter
    (fun run => decide (run.status ≠ some WorkflowRunStatus.completed))
  if concurrentRuns.isEmpty then none
  else
    match inputs.concurrent_skipping with
    | ConcurrentSkipping.always => concurrentRuns.head?
    | ConcurrentSkipping.outdated_runs =>
      concurrentRuns.find? (fun run => decide (ctx.currentRun.createdAt < run.createdAt))
    | ConcurrentSkipping.same_content =>
      concurrentRuns.find? (fun run => decide (run.treeHash = ctx.currentRun.treeHash))
    | ConcurrentSkipping.same_content_newer =>
      concurrentRuns.find? (fun run =>
        decide (run.treeHash = ctx.currentRun.treeHash ∧
          run.runNumber < ctx.currentRun.runNumber))
    | ConcurrentSkipping.never => none

/-- The cancelVictims filter of cancelOutdatedRuns: older runs that are not
completed, run on the same branch and repository, and have a different
tree hash. -/
def cancelVictims (ctx : Context) : List WorkflowRun :=
  ctx.olderRuns.filter (fun run =>
    if run.status = some WorkflowRunStatus.completed then false
    else
      decide (run.treeHash ≠ ctx.currentRun.treeHash ∧
        run.branch = ctx.currentRun.branch ∧
        run.repo = ctx.currentRun.repo))

/-- isCommitPathsIgnored: true when paths_ignore is nonempty and
micromatch.not leaves no file over, that is every changed file matches
the ignore patterns. -/
def isCommitPathsIgnored (mm : String → List String → Bool)
    (changedFiles pathsIgnore : List String) : Bool :=
  if pathsIgnore.isEmpty then false
  else (changedFiles.filter (fun f => !(mm f pathsIgnore))).isEmpty

/-- getCommitPathsMatches: the changed files matching the paths patterns. -/
def getCommitPathsMatches (mm : String → List String → Bool)
    (changedFiles paths : List String) : List String :=
  changedFiles.filter (fun f => mm f paths)

/-- The backtracking-limit test of backtracePathSkipping:
backtracking equal to false fires at distance 1, a numeric bound fires
when it equals the distance, and backtracking equal to true never fires. -/
def backtrackingReached : Backtracking → Nat → Bool
  | Backtracking.bool b, d => !b && decide (d = 1)
  | Backtracking.num n, d => decide (n = (d : Int))

/-- One body of the inner filter loop, for a single filter: an already
resolved filter is left untouched (it is no longer an unknown filter),
otherwise the source checks, in order: successful duplicate for the
commit tree, backtracking limit, all files ignored, no file matching a
nonempty allow list, and finally resolves to dont-skip. -/
def stepFilter (mm : String → List String → Bool) (successfulRun : Option WorkflowRun)
    (changedFiles : List String) (d : Nat) (cfg : FilterCfg) (st : FilterState) : FilterState :=
  if st.should_skip.isSome then st
  else
    match successfulRun with
    | some r => { st with should_skip := some true, skipped_by := some r, backtrack_count := d }
    | none =>
      if backtrackingReached cfg.backtracking d then
        { st with should_skip := some false, backtrack_count := d }
      else if isCommitPathsIgnored mm changedFiles cfg.paths_ignore then st
      else if 1 ≤ cfg.paths.length then
        let matchList := getCommitPathsMatches mm changedFiles cfg.paths
        if matchList.length = 0 then st
        else { st with matched_files := some matchList, should_skip := some false,
                       backtrack_count := d }
      else { st with should_skip := some false, backtrack_count := d }

/-- The inner loop over all still-unknown filters of one iteration. -/
def stepAllFilters (mm : String → List String → Bool) (successfulRun : Option WorkflowRun)
    (changedFiles : List String) (d : Nat)
    (fs : List (FilterCfg × FilterState)) : List (FilterCfg × FilterState) :=
  fs.map (fun p => (p.1, stepFilter mm successfulRun changedFiles d p.1 p.2))

/-- hasUnknownFilters of the PathsResult class. -/
def hasUnknownFilters (fs : List (FilterCfg × FilterState)) : Bool :=
  fs.any (fun p => p.2.should_skip.isNone)

/-- Lookup of a filter entry by name (getFilter of PathsResult). -/
def findFilter (fs : List (FilterCfg × FilterState)) (name : String) :
    Option (FilterCfg × FilterState) :=
  fs.find? (fun p => p.1.name == name)

/-- The per-iteration successful-run candidate:
distanceToHEAD greater than zero and findSuccessfulDuplicateRun on the
tree sha of the fetched commit. -/
def successCandidate (ctx : Context) (d : Nat) (commit : Commit) : Option WorkflowRun :=
  if 0 < d then findSuccessfulDuplicateRun ctx (some commit.treeSha) else none

/-- fetchCommitDetails: undefined and the empty string are falsy shas, and
a failing remote call is the none of the store. -/
def fetchCommitDetails (store : String → Option Commit) (sha : Option String) : Option Commit :=
  match sha with
  | none => none
  | some s => if s = "" then none else store s

/-- The do-while loop of backtracePathSkipping. The real loop bound is the
source check distanceToHEAD at least 50; the extra fuel argument only
makes the recursion structural and is started at 52, strictly more than
the 51 iterations the distance ceiling admits, so the fuel-zero branch is
unreachable from backtracePathSkipping. -/
def backtraceLoop (store : String → Option Commit) (mm : String → List String → Bool)
    (ctx : Context) :
    Nat → Option String → Nat → List (FilterCfg × FilterState) → List (List String) →
    List (FilterCfg × FilterState) × List (List String)
  | 0, _, _, fs, acc => (fs, acc)
  | fuel + 1, iterSha, d, fs, acc =>
    match fetchCommitDetails store iterSha with
    | none => (fs, acc)
    | some commit =>
      let nextSha := commit.parents.head?
      let changedFiles := commit.files.getD []
      let acc2 := acc ++ [changedFiles]
      let successfulRun := successCandidate ctx d commit
      let fs2 := stepAllFilters mm successfulRun changedFiles d fs
      if 50 ≤ d then (fs2, acc2)
      else if hasUnknownFilters fs2 then backtraceLoop store mm ctx fuel nextSha (d + 1) fs2 acc2
      else (fs2, acc2)

/-- Name of the synthetic global filter. -/
def globalName : String := "global"

/-- The synthetic global filter derived from the plain paths and
paths_ignore inputs, with backtracking true. -/
def globalCfg (inputs : Inputs) : FilterCfg :=
  { name := globalName, paths_ignore := inputs.paths_ignore, paths := inputs.paths,
    backtracking := Backtracking.bool true }

/-- The combined filter record built by object spread: the global entry
overrides a user filter of the same name in place, otherwise it is
appended after the configured filters. -/
def combinedFilters (inputs : Inputs) : List FilterCfg :=
  if inputs.paths_filter.any (fun c => c.name == globalName) then
    inputs.paths_filter.map (fun c => if c.name == globalName then globalCfg inputs else c)
  else inputs.paths_filter ++ [globalCfg inputs]

/-- All filters paired with their initial unresolved state. -/
def initialFilters (inputs : Inputs) : List (FilterCfg × FilterState) :=
  (combinedFilters inputs).map (fun c => (c, initialFilterState))

/-- backtracePathSkipping of src/main.ts: walk first parents from the
current commit, multiplexed over all filters. -/
def backtracePathSkipping (store : String → Option Commit) (mm : String → List String → Bool)
    (ctx : Context) (inputs : Inputs) :
    List (FilterCfg × FilterState) × List (List String) :=
  backtraceLoop store mm ctx 52 (some ctx.currentRun.commitHash) 0 (initialFilters inputs) []

/-- The result record assembled by run and exitSuccess: verdict, reason,
causing run, per-filter results and the changed-file listing. -/
structure RunOutput where
  should_skip : Bool
  reason : String
  skipped_by : Option WorkflowRun
  paths_result : Option (List (FilterCfg × FilterState))
  changed_files : Option (List (List String))
deriving Repr

def doNotSkipReason : String := "do_not_skip"
def skipAfterSuccessfulDuplicateReason : String := "skip_after_successful_duplicate"
def concurrentSkippingReason : String := "concurrent_skipping"
def pathsReason : String := "paths"
def noTransferableRunReason : String := "no_transferable_run"

/-- The result of the paths branch of run: the top-level verdict comes
from the global filter, with a null verdict coerced to false. -/
def pathsVerdict (store : String → Option Commit) (mm : String → List String → Bool)
    (inputs : Inputs) (ctx : Context) : RunOutput :=
  let res := backtracePathSkipping store mm ctx inputs
  let g := ((findFilter res.1 globalName).map Prod.snd).getD initialFilterState
  { should_skip := g.should_skip.getD false
    reason := pathsReason
    skipped_by := g.skipped_by
    paths_result := some res.1
    changed_files := some res.2 }

/-- The decision pipeline of SkipDuplicateActions.run, as the value passed
to exitSuccess on each exit path: do-not-skip short circuit, successful
duplicate, concurrent run, paths verdict, default. The cancellation of
outdated runs has no influence on this value and is modelled separately
by cancelVictims. -/
def runVerdict (store : String → Option Commit) (mm : String → List String → Bool)
    (inputs : Inputs) (ctx : Context) : RunOutput :=
  if ctx.currentRun.event ∈ inputs.do_not_skip then
    { should_skip := false, reason := doNotSkipReason, skipped_by := none,
      paths_result := none, changed_files := none }
  else
    match (if inputs.skip_after_successful_duplicates then
        findSuccessfulDuplicateRun ctx (effectiveTreeHash ctx ctx.currentRun)
      else none) with
    | some r =>
      { should_skip := true, reason := skipAfterSuccessfulDuplicateReason, skipped_by := some r,
        paths_result := none, changed_files := none }
    | none =>
      match (if inputs.concurrent_skipping ≠ ConcurrentSkipping.never then
          detectConcurrentRuns inputs ctx
        else none) with
      | some r =>
        { should_skip := true, reason := concurrentSkippingReason, skipped_by := some r,
          paths_result := none, changed_files := none }
      | none =>
        if 1 ≤ inputs.paths.length ∨ 1 ≤ inputs.paths_ignore.length ∨
            1 ≤ inputs.paths_filter.length then
          pathsVerdict store mm inputs ctx
        else
          { should_skip := false, reason := noTransferableRunReason, skipped_by := none,
            paths_result := none, changed_files := none }

end SkipDup

namespace Legacy

open SkipDup

/-- The WorkflowRun record of the earlier engine in src/index.ts: its
status field is non-null and there is no run_number or event field on the
record itself (the trigger is read from the ambient github context). -/
structure LegacyRun where
  treeHash : String
  commitHash : String
  status : WorkflowRunStatus
  conclusion : Option WorkflowRunConclusion
  branch : Option String
  runId : Nat
  workflowId : Nat
  createdAt : Nat
deriving DecidableEq, Repr

/-- How a call of detectDuplicateRuns in src/index.ts ends: exitSuccess
with a verdict (exit code zero), logFatal (exit code one), or a normal
return that lets the orchestration continue. -/
inductive Outcome
  | exitSuccess (shouldSkip : Bool)
  | fatal
  | proceed
deriving DecidableEq, Repr

/-- The trigger name compared against github.context.eventName. -/
def workflowDispatchEvent : String := "workflow_dispatch"

/-- detectDuplicateRuns of src/index.ts: over the older runs sharing the
current tree hash, in source order: the workflow_dispatch exemption, a
completed successful duplicate (skip), a non-completed duplicate (skip),
and only then a completed failed duplicate (hard failure). -/
def detectDuplicateRuns (eventName : String) (currentRun : LegacyRun)
    (otherRuns : List LegacyRun) : Outcome :=
  let duplicateRuns := otherRuns.filter (fun run => decide (run.treeHash = currentRun.treeHash))
  if eventName = workflowDispatchEvent then Outcome.exitSuccess false
  else
    match duplicateRuns.find? (fun run =>
        decide (run.status = WorkflowRunStatus.completed ∧
          run.conclusion = some WorkflowRunConclusion.success)) with
    | some _ => Outcome.exitSuccess true
    | none =>
      match duplicateRuns.find? (fun run =>
          decide (run.status ≠ WorkflowRunStatus.completed)) with
      | some _ => Outcome.exitSuccess true
      | none =>
        match duplicateRuns.find? (fun run =>
            decide (run.status = WorkflowRunStatus.completed ∧
              run.conclusion = some WorkflowRunConclusion.failure)) with
        | some _ => Outcome.fatal
        | none => Outcome.proceed

end Legacy

namespace SkipDup

/-- Current run for the claim C1 counterexample. -/
def c1Current : Legacy.LegacyRun :=
  { treeHash := "T", commitHash := "h0", status := WorkflowRunStatus.queued,
    conclusion := none, branch := some "main", runId := 3, workflowId := 1, createdAt := 300 }

/-- An older run with the same tree hash that already failed. -/
def c1Failed : Legacy.LegacyRun :=
  { treeHash := "T", commitHash := "h1", status := WorkflowRunStatus.completed,
    conclusion := some WorkflowRunConclusion.failure, branch := some "main",
    runId := 1, workflowId := 1, createdAt := 100 }

/-- An older run with the same tree hash that is still in progress. -/
def c1InProgress : Legacy.LegacyRun :=
  { treeHash := "T", commitHash := "h2", status := WorkflowRunStatus.in_progress,
    conclusion := none, branch := some "main", runId := 2, workflowId := 1, createdAt := 200 }

/-- A push trigger name for concrete scenarios. -/
def pushEvent : String := "push"

/-- Claim C1, counterexample: among the older runs sharing the current
tree hash one is completed with conclusion failure and none is completed
with conclusion success, yet the engine emits a skip verdict (because a
non-completed duplicate is found first) instead of the hard failure the
claim requires. -/
theorem claim_C1_counterexample :
    (∃ r ∈ [c1InProgress, c1Failed], r.treeHash = c1Current.treeHash ∧
      r.status = WorkflowRunStatus.completed ∧
      r.conclusion = some WorkflowRunConclusion.failure) ∧
    (∀ r ∈ [c1InProgress, c1Failed], r.treeHash = c1Current.treeHash →
      ¬(r.status = WorkflowRunStatus.completed ∧
        r.conclusion = some WorkflowRunConclusion.success)) ∧
    Legacy.detectDuplicateRuns pushEvent c1Current [c1InProgress, c1Failed] ≠
      Legacy.Outcome.fatal ∧
    Legacy.detectDuplicateRuns pushEvent c1Current [c1InProgress, c1Failed] =
      Legacy.Outcome.exitSuccess true := by
  decide

/-- Claim C1, amended: if additionally the trigger is not
workflow_dispatch and every older run sharing the current tree hash is
completed and not successful, then a completed failed duplicate makes the
engine abort with the hard failure. -/
theorem claim_C1_theorem (eventName : String) (currentRun : Legacy.LegacyRun)
    (otherRuns : List Legacy.LegacyRun)
    (hev : eventName ≠ Legacy.workflowDispatchEvent)
    (hfail : ∃ r ∈ otherRuns, r.treeHash = currentRun.treeHash ∧
      r.status = WorkflowRunStatus.completed ∧
      r.conclusion = some WorkflowRunConclusion.failure)
    (hall : ∀ r ∈ otherRuns, r.treeHash = currentRun.treeHash →
      r.status = WorkflowRunStatus.completed ∧
      r.conclusion ≠ some WorkflowRunConclusion.success) :
    Legacy.detectDuplicateRuns eventName currentRun otherRuns = Legacy.Outcome.fatal := by
  have hmem : ∀ r ∈ otherRuns.filter
      (fun run => decide (run.treeHash = currentRun.treeHash)),
      r ∈ otherRuns ∧ r.treeHash = currentRun.treeHash := by
    intro r hr
    have h := List.mem_filter.mp hr
    exact ⟨h.1, of_decide_eq_true h.2⟩
  have h1 : (otherRuns.filter (fun run => decide (run.treeHash = currentRun.treeHash))).find?
      (fun run => decide (run.status = WorkflowRunStatus.completed ∧
        run.conclusion = some WorkflowRunConclusion.success)) = none := by
    rw [List.find?_eq_none]
    intro x hx hpx
    obtain ⟨hxo, hxt⟩ := hmem x hx
    exact (hall x hxo hxt).2 (of_decide_eq_true hpx).2
  have h2 : (otherRuns.filter (fun run => decide (run.treeHash = currentRun.treeHash))).find?
      (fun run => decide (run.status ≠ WorkflowRunStatus.completed)) = none := by
    rw [List.find?_eq_none]
    intro x hx hpx
    obtain ⟨hxo, hxt⟩ := hmem x hx
    exact (of_decide_eq_true hpx) (hall x hxo hxt).1
  obtain ⟨r, hro, hrt, hrs, hrc⟩ := hfail
  have h3 : ∃ a, (otherRuns.filter
      (fun run => decide (run.treeHash = currentRun.treeHash))).find?
      (fun run => decide (run.status = WorkflowRunStatus.completed ∧
        run.conclusion = some WorkflowRunConclusion.failure)) = some a := by
    rw [← Option.isSome_iff_exists, List.find?_isSome]
    exact ⟨r, List.mem_filter.mpr ⟨hro, decide_eq_true hrt⟩,
      decide_eq_true ⟨hrs, hrc⟩⟩
  obtain ⟨a, ha⟩ := h3
  simp only [Legacy.detectDuplicateRuns, h1, h2, ha, if_neg hev]

/-- Claim C1, witness for the amended theorem at a concrete input. -/
theorem claim_C1_witness :
    Legacy.detectDuplicateRuns pushEvent c1Current [c1Failed] = Legacy.Outcome.fatal :=
  claim_C1_theorem pushEvent c1Current [c1Failed] (by decide)
    ⟨c1Failed, by decide⟩ (by decide)

/-- Claim C8: when the current trigger is in the do-not-skip set, the
verdict is the do_not_skip record, for every store, matcher, other input
and other run list, so no downstream detector can influence it. -/
theorem claim_C8 (store : String → Option Commit) (mm : String → List String → Bool)
    (inputs : Inputs) (ctx : Context)
    (h : ctx.currentRun.event ∈ inputs.do_not_skip) :
    runVerdict store mm inputs ctx =
      { should_skip := false, reason := doNotSkipReason, skipped_by := none,
        paths_result := none, changed_files := none } := by
  unfold runVerdict
  rw [if_pos h]

end SkipDup

namespace SkipDup

/-- An older run, completed successfully, with tree hash T. -/
def witnessRunSuccess : WorkflowRun :=
  { id := 1, runNumber := 1, event := WorkflowRunTrigger.push, treeHash := "T",
    commitHash := "h1", status := some WorkflowRunStatus.completed,
    conclusion := some WorkflowRunConclusion.success, branch := some "main",
    repo := some "o/r", workflowId := 9, createdAt := 100 }

/-- A current run, in progress, with tree hash T. -/
def witnessRunCurrent : WorkflowRun :=
  { id := 2, runNumber := 2, event := WorkflowRunTrigger.push, treeHash := "T",
    commitHash := "h2", status := some WorkflowRunStatus.in_progress,
    conclusion := none, branch := some "main",
    repo := some "o/r", workflowId := 9, createdAt := 200 }

/-- Context of the concrete scenarios. -/
def witnessCtx : Context :=
  { currentRun := witnessRunCurrent, allRuns := [witnessRunSuccess],
    olderRuns := [witnessRunSuccess], artifactT := fun _ => none }

/-- Inputs of the concrete scenarios. -/
def witnessInputs : Inputs :=
  { paths := [], paths_ignore := [], paths_filter := [],
    do_not_skip := [WorkflowRunTrigger.workflow_dispatch],
    concurrent_skipping := ConcurrentSkipping.never,
    cancel_others := false, skip_after_successful_duplicates := true }

/-- A commit store where every fetch fails. -/
def emptyStore : String → Option Commit := fun _ => none

/-- A glob matcher where nothing matches. -/
def noMatch : String → List String → Bool := fun _ _ => false

/-- Claim C8, witness: a workflow_dispatch-exempt current run at concrete
inputs. -/
def c8Inputs : Inputs := { witnessInputs with do_not_skip := [WorkflowRunTrigger.push] }

theorem claim_C8_witness :
    runVerdict emptyStore noMatch c8Inputs witnessCtx =
      { should_skip := false, reason := doNotSkipReason, skipped_by := none,
        paths_result := none, changed_files := none } :=
  claim_C8 emptyStore noMatch c8Inputs witnessCtx (by decide)

/-- Claim C9: assuming the older-run list is the strictly-older filter
built in main, a run is a cancellation victim exactly when it is strictly
older, not completed, on the same branch and repository, and has a
different tree hash; and a run sharing the current tree hash is never a
victim. -/
theorem claim_C9 (ctx : Context)
    (holder : ctx.olderRuns = computeOlderRuns ctx.currentRun ctx.allRuns) :
    (∀ run : WorkflowRun, run ∈ cancelVictims ctx ↔
      (run ∈ ctx.allRuns ∧ run.createdAt < ctx.currentRun.createdAt ∧
        run.status ≠ some WorkflowRunStatus.completed ∧
        run.treeHash ≠ ctx.currentRun.treeHash ∧
        run.branch = ctx.currentRun.branch ∧ run.repo = ctx.currentRun.repo)) ∧
    (∀ run : WorkflowRun, run.treeHash = ctx.currentRun.treeHash →
      run ∉ cancelVictims ctx) := by
  have hiff : ∀ run : WorkflowRun, run ∈ cancelVictims ctx ↔
      (run ∈ ctx.allRuns ∧ run.createdAt < ctx.currentRun.createdAt ∧
        run.status ≠ some WorkflowRunStatus.completed ∧
        run.treeHash ≠ ctx.currentRun.treeHash ∧
        run.branch = ctx.currentRun.branch ∧ run.repo = ctx.currentRun.repo) := by
    intro run
    simp only [cancelVictims, holder, computeOlderRuns, List.mem_filter,
      decide_eq_true_eq]
    by_cases hst : run.status = some WorkflowRunStatus.completed
    · simp [hst]
    · simp only [hst, if_false, decide_eq_true_eq, ne_eq, not_false_eq_true]
      tauto
  refine ⟨hiff, ?_⟩
  intro run ht hmem
  exact (((hiff run).mp hmem).2.2.2.1) ht

theorem claim_C9_witness : witnessRunSuccess ∉ cancelVictims witnessCtx :=
  (claim_C9 witnessCtx (by decide)).2 witnessRunSuccess (by decide)

end SkipDup


namespace SkipDup

/-- Closed form of detectConcurrentRuns under the same_content_newer
policy. -/
lemma detectConcurrentRuns_scn (inputs : Inputs) (ctx : Context)
    (h : inputs.concurrent_skipping = ConcurrentSkipping.same_content_newer) :
    detectConcurrentRuns inputs ctx =
      (ctx.allRuns.filter
        (fun run => decide (run.status ≠ some WorkflowRunStatus.completed))).find?
        (fun run => decide (run.treeHash = ctx.currentRun.treeHash ∧
          run.runNumber < ctx.currentRun.runNumber)) := by
  unfold detectConcurrentRuns
  rw [h]
  by_cases he : (ctx.allRuns.filter
      (fun run => decide (run.status ≠ some WorkflowRunStatus.completed))).isEmpty
  · rw [if_pos he]
    rw [List.isEmpty_iff.mp he, List.find?_nil]
  · rw [if_neg he]

/-- Claim C4: under policy same_content_newer the resolver yields a skip
cause exactly when some non-completed other run shares the current tree
hash with a strictly lower run number; any cited run satisfies exactly
these conditions; and for an isolated pair of concurrent same-content
runs the lower-numbered one never skips while the higher-numbered one
skips, citing the lower-numbered one. -/
theorem claim_C4 (inputs : Inputs) (ctx : Context)
    (h : inputs.concurrent_skipping = ConcurrentSkipping.same_content_newer) :
    ((detectConcurrentRuns inputs ctx).isSome ↔
      ∃ r ∈ ctx.allRuns, r.status ≠ some WorkflowRunStatus.completed ∧
        r.treeHash = ctx.currentRun.treeHash ∧
        r.runNumber < ctx.currentRun.runNumber) ∧
    (∀ r : WorkflowRun, detectConcurrentRuns inputs ctx = some r →
      r ∈ ctx.allRuns ∧ r.status ≠ some WorkflowRunStatus.completed ∧
        r.treeHash = ctx.currentRun.treeHash ∧
        r.runNumber < ctx.currentRun.runNumber) ∧
    (∀ a b : WorkflowRun, a.treeHash = b.treeHash → a.runNumber < b.runNumber →
      detectConcurrentRuns inputs
        { currentRun := a, allRuns := [b], olderRuns := [],
          artifactT := fun _ => none } = none ∧
      (a.status ≠ some WorkflowRunStatus.completed →
        detectConcurrentRuns inputs
          { currentRun := b, allRuns := [a], olderRuns := [],
            artifactT := fun _ => none } = some a)) := by
  refine ⟨?_, ?_, ?_⟩
  · rw [detectConcurrentRuns_scn inputs ctx h]
    simp only [List.find?_isSome, List.mem_filter, decide_eq_true_eq]
    constructor
    · rintro ⟨x, ⟨hx, h1⟩, h2, h3⟩
      exact ⟨x, hx, h1, h2, h3⟩
    · rintro ⟨r, hr, h1, h2, h3⟩
      exact ⟨r, ⟨hr, h1⟩, h2, h3⟩
  · intro r hr
    rw [detectConcurrentRuns_scn inputs ctx h] at hr
    have hpb := List.find?_some hr
    simp only [decide_eq_true_eq] at hpb
    have hm := List.mem_filter.mp (List.mem_of_find?_eq_some hr)
    simp only [decide_eq_true_eq] at hm
    exact ⟨hm.1, hm.2, hpb.1, hpb.2⟩
  · intro a b hab hnum
    constructor
    · rw [detectConcurrentRuns_scn inputs _ h]
      by_cases hbs : b.status = some WorkflowRunStatus.completed
      · simp [hbs]
      · simp [hbs, Nat.lt_asymm hnum]
    · intro has
      rw [detectConcurrentRuns_scn inputs _ h]
      simp [has, hab, hnum]

/-- Claim C4, witness: inputs with the same_content_newer policy. -/
def c4Inputs : Inputs :=
  { witnessInputs with concurrent_skipping := ConcurrentSkipping.same_content_newer }

theorem claim_C4_witness :
    detectConcurrentRuns c4Inputs
      { currentRun := witnessRunSuccess, allRuns := [witnessRunCurrent],
        olderRuns := [], artifactT := fun _ => none } = none :=
  ((claim_C4 c4Inputs witnessCtx rfl).2.2 witnessRunSuccess witnessRunCurrent
    (by decide) (by decide)).1

/-- Claim C2: with skip_after_successful_duplicates enabled and the
trigger not exempt, an older run that is completed with conclusion
success and whose effective tree hash equals the (nonempty) effective
tree hash of the current run forces the verdict skip with reason
skip_after_successful_duplicate, citing a run with exactly these
properties. -/
theorem claim_C2 (store : String → Option Commit) (mm : String → List String → Bool)
    (inputs : Inputs) (ctx : Context) (r : WorkflowRun) (th : String)
    (h1 : inputs.skip_after_successful_duplicates = true)
    (h2 : ctx.currentRun.event ∉ inputs.do_not_skip)
    (h3 : r ∈ ctx.olderRuns)
    (h4 : effectiveTreeHash ctx r = some th)
    (h5 : effectiveTreeHash ctx ctx.currentRun = some th)
    (h6 : th ≠ "")
    (h7 : r.status = some WorkflowRunStatus.completed)
    (h8 : r.conclusion = some WorkflowRunConclusion.success) :
    (runVerdict store mm inputs ctx).should_skip = true ∧
    (runVerdict store mm inputs ctx).reason = skipAfterSuccessfulDuplicateReason ∧
    ∃ c, (runVerdict store mm inputs ctx).skipped_by = some c ∧ c ∈ ctx.olderRuns ∧
      effectiveTreeHash ctx c = some th ∧ c.status = some WorkflowRunStatus.completed ∧
      c.conclusion = some WorkflowRunConclusion.success := by
  have hkey : ∃ c, ctx.olderRuns.find? (fun run =>
      decide (effectiveTreeHash ctx run = some th ∧
        run.status = some WorkflowRunStatus.completed ∧
        run.conclusion = some WorkflowRunConclusion.success)) = some c := by
    rw [← Option.isSome_iff_exists, List.find?_isSome]
    exact ⟨r, h3, decide_eq_true ⟨h4, h7, h8⟩⟩
  obtain ⟨c, hc⟩ := hkey
  have hfs : findSuccessfulDuplicateRun ctx (effectiveTreeHash ctx ctx.currentRun) = some c := by
    rw [h5]
    simp only [findSuccessfulDuplicateRun]
    rw [if_neg h6]
    exact hc
  have hpb := List.find?_some hc
  simp only [decide_eq_true_eq] at hpb
  have hmem := List.mem_of_find?_eq_some hc
  have hver : runVerdict store mm inputs ctx =
      { should_skip := true, reason := skipAfterSuccessfulDuplicateReason,
        skipped_by := some c, paths_result := none, changed_files := none } := by
    unfold runVerdict
    rw [if_neg h2, if_pos h1, hfs]
  rw [hver]
  exact ⟨rfl, rfl, c, rfl, hmem, hpb.1, hpb.2.1, hpb.2.2⟩

theorem claim_C2_witness :
    (runVerdict emptyStore noMatch witnessInputs witnessCtx).should_skip = true ∧
    (runVerdict emptyStore noMatch witnessInputs witnessCtx).reason =
      skipAfterSuccessfulDuplicateReason ∧
    ∃ c, (runVerdict emptyStore noMatch witnessInputs witnessCtx).skipped_by = some c ∧
      c ∈ witnessCtx.olderRuns ∧
      effectiveTreeHash witnessCtx c = some "T" ∧
      c.status = some WorkflowRunStatus.completed ∧
      c.conclusion = some WorkflowRunConclusion.success :=
  claim_C2 emptyStore noMatch witnessInputs witnessCtx witnessRunSuccess "T"
    rfl (by decide) (by decide) (by decide) (by decide) (by decide) (by decide) (by decide)

end SkipDup

namespace SkipDup

/-- Unfolding lemma: the loop with zero fuel returns its state. -/
lemma backtraceLoop_zero (store : String → Option Commit) (mm : String → List String → Bool)
    (ctx : Context) (iterSha : Option String) (d : Nat)
    (fs : List (FilterCfg × FilterState)) (acc : List (List String)) :
    backtraceLoop store mm ctx 0 iterSha d fs acc = (fs, acc) := rfl

/-- Unfolding lemma: a failing fetch ends the walk with the state
unchanged. -/
lemma backtraceLoop_none (store : String → Option Commit) (mm : String → List String → Bool)
    (ctx : Context) (fuel : Nat) (iterSha : Option String) (d : Nat)
    (fs : List (FilterCfg × FilterState)) (acc : List (List String))
    (hfc : fetchCommitDetails store iterSha = none) :
    backtraceLoop store mm ctx (fuel + 1) iterSha d fs acc = (fs, acc) := by
  simp only [backtraceLoop, hfc]

/-- Unfolding lemma: one successful iteration of the walk. -/
lemma backtraceLoop_some (store : String → Option Commit) (mm : String → List String → Bool)
    (ctx : Context) (fuel : Nat) (iterSha : Option String) (d : Nat)
    (fs : List (FilterCfg × FilterState)) (acc : List (List String)) (commit : Commit)
    (hfc : fetchCommitDetails store iterSha = some commit) :
    backtraceLoop store mm ctx (fuel + 1) iterSha d fs acc =
      (if 50 ≤ d then
        (stepAllFilters mm (successCandidate ctx d commit) (commit.files.getD []) d fs,
          acc ++ [commit.files.getD []])
      else if hasUnknownFilters
          (stepAllFilters mm (successCandidate ctx d commit) (commit.files.getD []) d fs) then
        backtraceLoop store mm ctx fuel commit.parents.head? (d + 1)
          (stepAllFilters mm (successCandidate ctx d commit) (commit.files.getD []) d fs)
          (acc ++ [commit.files.getD []])
      else
        (stepAllFilters mm (successCandidate ctx d commit) (commit.files.getD []) d fs,
          acc ++ [commit.files.getD []])) := by
  simp only [backtraceLoop, hfc]

/-- Lookup of a filter after one multiplexed step. -/
lemma findFilter_stepAllFilters (mm : String → List String → Bool)
    (s : Option WorkflowRun) (cf : List String) (d : Nat)
    (fs : List (FilterCfg × FilterState)) (name : String) :
    findFilter (stepAllFilters mm s cf d fs) name =
      (findFilter fs name).map (fun p => (p.1, stepFilter mm s cf d p.1 p.2)) := by
  unfold findFilter stepAllFilters
  rw [List.find?_map]
  rfl

/-- A step leaves an already resolved filter untouched. -/
lemma stepFilter_resolved (mm : String → List String → Bool) (s : Option WorkflowRun)
    (cf : List String) (d : Nat) (cfg : FilterCfg) (st : FilterState)
    (h : st.should_skip.isSome) :
    stepFilter mm s cf d cfg st = st := by
  unfold stepFilter
  rw [if_pos h]

/-- A filter found unresolved makes hasUnknownFilters true. -/
lemma hasUnknown_of_findFilter (fs : List (FilterCfg × FilterState)) (name : String)
    (cfg : FilterCfg) (st : FilterState)
    (hf : findFilter fs name = some (cfg, st)) (hu : st.should_skip = none) :
    hasUnknownFilters fs = true := by
  unfold hasUnknownFilters
  rw [List.any_eq_true]
  exact ⟨(cfg, st), List.mem_of_find?_eq_some hf, by simp [hu]⟩

/-- Once a filter is resolved, the rest of the walk never changes it. -/
lemma backtraceLoop_stable (store : String → Option Commit) (mm : String → List String → Bool)
    (ctx : Context) (name : String) (cfg : FilterCfg) (st : FilterState)
    (hs : st.should_skip.isSome) :
    ∀ fuel iterSha d fs acc, findFilter fs name = some (cfg, st) →
      findFilter (backtraceLoop store mm ctx fuel iterSha d fs acc).1 name = some (cfg, st) := by
  intro fuel
  induction fuel with
  | zero =>
    intro iterSha d fs acc hf
    rw [backtraceLoop_zero]
    exact hf
  | succ n ih =>
    intro iterSha d fs acc hf
    cases hfc : fetchCommitDetails store iterSha with
    | none =>
      rw [backtraceLoop_none store mm ctx n iterSha d fs acc hfc]
      exact hf
    | some commit =>
      rw [backtraceLoop_some store mm ctx n iterSha d fs acc commit hfc]
      have hstep : findFilter
          (stepAllFilters mm (successCandidate ctx d commit) (commit.files.getD []) d fs) name =
          some (cfg, st) := by
        rw [findFilter_stepAllFilters, hf]
        simp only [Option.map_some']
        rw [stepFilter_resolved mm (successCandidate ctx d commit) (commit.files.getD [])
          d cfg st hs]
      by_cases h50 : 50 ≤ d
      · rw [if_pos h50]
        exact hstep
      · rw [if_neg h50]
        by_cases hu : hasUnknownFilters
            (stepAllFilters mm (successCandidate ctx d commit) (commit.files.getD []) d fs) = true
        · rw [if_pos hu]
          exact ih commit.parents.head? (d + 1) _ _ hstep
        · rw [if_neg hu]
          exact hstep

end SkipDup

namespace SkipDup

/-- Core walk lemma: along a fetchable first-parent chain, a filter that
every step before k leaves unchanged and that step k resolves ends the
walk carrying exactly the state computed at step k. -/
lemma walk_reaches (store : String → Option Commit) (mm : String → List String → Bool)
    (ctx : Context) (sha : Nat → String) (c : Nat → Commit) (k : Nat)
    (name : String) (cfg : FilterCfg) (st0 : FilterState)
    (hk50 : k ≤ 50)
    (hunk : st0.should_skip = none)
    (hfetch : ∀ d, d ≤ k → fetchCommitDetails store (some (sha d)) = some (c d))
    (hlink : ∀ d, d < k → (c d).parents.head? = some (sha (d + 1)))
    (hstay : ∀ d, d < k →
      stepFilter mm (successCandidate ctx d (c d)) ((c d).files.getD []) d cfg st0 = st0)
    (hres : (stepFilter mm (successCandidate ctx k (c k))
      ((c k).files.getD []) k cfg st0).should_skip.isSome) :
    ∀ fuel j fs acc, j ≤ k → k - j < fuel →
      findFilter fs name = some (cfg, st0) →
      findFilter (backtraceLoop store mm ctx fuel (some (sha j)) j fs acc).1 name =
        some (cfg, stepFilter mm (successCandidate ctx k (c k))
          ((c k).files.getD []) k cfg st0) := by
  intro fuel
  induction fuel with
  | zero =>
    intro j fs acc hj hfu
    exact absurd hfu (Nat.not_lt_zero _)
  | succ n ih =>
    intro j fs acc hj hfu hf
    rw [backtraceLoop_some store mm ctx n (some (sha j)) j fs acc (c j) (hfetch j hj)]
    by_cases hjk : j = k
    · subst hjk
      have hstepped : findFilter
          (stepAllFilters mm (successCandidate ctx j (c j)) ((c j).files.getD []) j fs) name =
          some (cfg, stepFilter mm (successCandidate ctx j (c j))
            ((c j).files.getD []) j cfg st0) := by
        rw [findFilter_stepAllFilters, hf]
        rfl
      by_cases h50 : 50 ≤ j
      · rw [if_pos h50]
        exact hstepped
      · rw [if_neg h50]
        by_cases hu : hasUnknownFilters
            (stepAllFilters mm (successCandidate ctx j (c j))
              ((c j).files.getD []) j fs) = true
        · rw [if_pos hu]
          exact backtraceLoop_stable store mm ctx name cfg _ hres n
            (c j).parents.head? (j + 1) _ _ hstepped
        · rw [if_neg hu]
          exact hstepped
    · have hjlt : j < k := lt_of_le_of_ne hj hjk
      have hstepped : findFilter
          (stepAllFilters mm (successCandidate ctx j (c j)) ((c j).files.getD []) j fs) name =
          some (cfg, st0) := by
        rw [findFilter_stepAllFilters, hf]
        simp only [Option.map_some']
        rw [hstay j hjlt]
      have h50 : ¬ 50 ≤ j := by omega
      rw [if_neg h50]
      have hu : hasUnknownFilters
          (stepAllFilters mm (successCandidate ctx j (c j)) ((c j).files.getD []) j fs) = true :=
        hasUnknown_of_findFilter _ name cfg st0 hstepped hunk
      rw [if_pos hu]
      rw [hlink j hjlt]
      exact ih (j + 1) _ _ (by omega) (by omega) hstepped

end SkipDup

namespace SkipDup

/-- Resolution of an unresolved filter by a successful duplicate run. -/
lemma stepFilter_success (mm : String → List String → Bool) (cf : List String) (d : Nat)
    (cfg : FilterCfg) (R : WorkflowRun) :
    stepFilter mm (some R) cf d cfg initialFilterState =
      { should_skip := some true, backtrack_count := d,
        skipped_by := some R, matched_files := none } := rfl

/-- Resolution of an unresolved filter by its backtracking bound. -/
lemma stepFilter_bound (mm : String → List String → Bool) (cf : List String) (d : Nat)
    (cfg : FilterCfg) (h : backtrackingReached cfg.backtracking d = true) :
    stepFilter mm none cf d cfg initialFilterState =
      { should_skip := some false, backtrack_count := d,
        skipped_by := none, matched_files := none } := by
  simp [stepFilter, initialFilterState, h]

/-- A step leaves an unresolved filter unchanged when there is no
successful duplicate, the bound is not reached, and the commit is either
fully ignored or matches nothing of a nonempty allow list. -/
lemma stepFilter_stay (mm : String → List String → Bool) (s : Option WorkflowRun)
    (cf : List String) (d : Nat) (cfg : FilterCfg) (st : FilterState)
    (hunk : st.should_skip = none) (hs : s = none)
    (hbr : backtrackingReached cfg.backtracking d = false)
    (hig : isCommitPathsIgnored mm cf cfg.paths_ignore = true ∨
      (1 ≤ cfg.paths.length ∧ (getCommitPathsMatches mm cf cfg.paths).length = 0)) :
    stepFilter mm s cf d cfg st = st := by
  subst hs
  by_cases hi : isCommitPathsIgnored mm cf cfg.paths_ignore = true
  · simp [stepFilter, hunk, hbr, hi]
  · cases hig with
    | inl h' => exact absurd h' hi
    | inr h' => simp [stepFilter, hunk, hbr, hi, h'.1, h'.2]

/-- Claim C3: if all commits at distances 0 to k-1 change only files
matching the deny list of filter F, no earlier success match or bound
fires on F, and the commit at distance k (at least 1) carries a tree hash
with a strictly-older completed successful run, then F resolves to skip
citing that run with backtrack distance k; moreover the success-match is
never applied at the starting commit (distance 0). -/
theorem claim_C3 (store : String → Option Commit) (mm : String → List String → Bool)
    (ctx : Context) (inputs : Inputs) (sha : Nat → String) (c : Nat → Commit)
    (k : Nat) (R : WorkflowRun) (fname : String) (Fcfg : FilterCfg)
    (hk1 : 1 ≤ k) (hk50 : k ≤ 50)
    (hfind : findFilter (initialFilters inputs) fname = some (Fcfg, initialFilterState))
    (hsha0 : sha 0 = ctx.currentRun.commitHash)
    (hfetch : ∀ d, d ≤ k → fetchCommitDetails store (some (sha d)) = some (c d))
    (hlink : ∀ d, d < k → (c d).parents.head? = some (sha (d + 1)))
    (hnosucc : ∀ d, 1 ≤ d → d < k →
      findSuccessfulDuplicateRun ctx (some (c d).treeSha) = none)
    (hnobound : ∀ d, d < k → backtrackingReached Fcfg.backtracking d = false)
    (hign : ∀ d, d < k →
      isCommitPathsIgnored mm ((c d).files.getD []) Fcfg.paths_ignore = true)
    (hsucc : findSuccessfulDuplicateRun ctx (some (c k).treeSha) = some R) :
    findFilter (backtracePathSkipping store mm ctx inputs).1 fname =
      some (Fcfg,
        { should_skip := some true, backtrack_count := k,
          skipped_by := some R, matched_files := none }) ∧
    ∀ (ctx2 : Context) (com : Commit), successCandidate ctx2 0 com = none := by
  constructor
  · have hsck : successCandidate ctx k (c k) = some R := by
      unfold successCandidate
      rw [if_pos (by omega : 0 < k)]
      exact hsucc
    have hstay : ∀ d, d < k →
        stepFilter mm (successCandidate ctx d (c d)) ((c d).files.getD []) d Fcfg
          initialFilterState = initialFilterState := by
      intro d hd
      have hsc : successCandidate ctx d (c d) = none := by
        unfold successCandidate
        by_cases h0 : 0 < d
        · rw [if_pos h0]
          exact hnosucc d h0 hd
        · rw [if_neg h0]
      exact stepFilter_stay mm _ _ d Fcfg initialFilterState rfl hsc (hnobound d hd)
        (Or.inl (hign d hd))
    have hres : (stepFilter mm (successCandidate ctx k (c k))
        ((c k).files.getD []) k Fcfg initialFilterState).should_skip.isSome := by
      rw [hsck, stepFilter_success]
      rfl
    have hmain := walk_reaches store mm ctx sha c k fname Fcfg initialFilterState hk50 rfl
      hfetch hlink hstay hres 52 0 (initialFilters inputs) [] (by omega) (by omega) hfind
    rw [hsck, stepFilter_success] at hmain
    unfold backtracePathSkipping
    rw [← hsha0]
    exact hmain
  · intro ctx2 com
    rfl

/-- Claim C7: a filter whose bound fires at distance b (a numeric bound b,
or backtracking false firing at distance 1), not resolved by any other
condition before, resolves to dont-skip with backtrack distance exactly
b, whatever the ancestry beyond distance b looks like. -/
theorem claim_C7 (store : String → Option Commit) (mm : String → List String → Bool)
    (ctx : Context) (inputs : Inputs) (sha : Nat → String) (c : Nat → Commit)
    (b : Nat) (fname : String) (Fcfg : FilterCfg)
    (hb50 : b ≤ 50)
    (hfind : findFilter (initialFilters inputs) fname = some (Fcfg, initialFilterState))
    (hsha0 : sha 0 = ctx.currentRun.commitHash)
    (hfetch : ∀ d, d ≤ b → fetchCommitDetails store (some (sha d)) = some (c d))
    (hlink : ∀ d, d < b → (c d).parents.head? = some (sha (d + 1)))
    (hnosucc : ∀ d, 1 ≤ d → d ≤ b →
      findSuccessfulDuplicateRun ctx (some (c d).treeSha) = none)
    (hreach : backtrackingReached Fcfg.backtracking b = true)
    (hnobound : ∀ d, d < b → backtrackingReached Fcfg.backtracking d = false)
    (hstay : ∀ d, d < b →
      isCommitPathsIgnored mm ((c d).files.getD []) Fcfg.paths_ignore = true ∨
      (1 ≤ Fcfg.paths.length ∧
        (getCommitPathsMatches mm ((c d).files.getD []) Fcfg.paths).length = 0)) :
    findFilter (backtracePathSkipping store mm ctx inputs).1 fname =
      some (Fcfg,
        { should_skip := some false, backtrack_count := b,
          skipped_by := none, matched_files := none }) := by
  have hscnone : ∀ d, d ≤ b → successCandidate ctx d (c d) = none := by
    intro d hd
    unfold successCandidate
    by_cases h0 : 0 < d
    · rw [if_pos h0]
      exact hnosucc d h0 hd
    · rw [if_neg h0]
  have hstay2 : ∀ d, d < b →
      stepFilter mm (successCandidate ctx d (c d)) ((c d).files.getD []) d Fcfg
        initialFilterState = initialFilterState := by
    intro d hd
    exact stepFilter_stay mm _ _ d Fcfg initialFilterState rfl
      (hscnone d (Nat.le_of_lt hd)) (hnobound d hd) (hstay d hd)
  have hres : (stepFilter mm (successCandidate ctx b (c b))
      ((c b).files.getD []) b Fcfg initialFilterState).should_skip.isSome := by
    rw [hscnone b (Nat.le_refl b), stepFilter_bound mm _ b Fcfg hreach]
    rfl
  have hmain := walk_reaches store mm ctx sha c b fname Fcfg initialFilterState hb50 rfl
    hfetch hlink hstay2 hres 52 0 (initialFilters inputs) [] (by omega) (by omega) hfind
  rw [hscnone b (Nat.le_refl b), stepFilter_bound mm _ b Fcfg hreach] at hmain
  unfold backtracePathSkipping
  rw [← hsha0]
  exact hmain

end SkipDup

namespace SkipDup

/-- Name of the example filter. -/
def docsName : String := "docs"

/-- Commit shas of the two-commit witness chain. -/
def c3Sha : Nat → String := fun d => if d = 0 then "c0" else "c1"

/-- Head commit: touches only the readme, first parent c1. -/
def c3CommitHead : Commit :=
  { treeSha := "t0", parents := ["c1"], files := some ["README.md"] }

/-- Ancestor commit with the known-good tree. -/
def c3CommitAncestor : Commit :=
  { treeSha := "TA", parents := [], files := some [] }

/-- The chain as a function of the distance. -/
def c3Commits : Nat → Commit := fun d => if d = 0 then c3CommitHead else c3CommitAncestor

/-- Store serving the two commits of the chain. -/
def c3Store : String → Option Commit := fun s =>
  if s = "c0" then some c3CommitHead
  else if s = "c1" then some c3CommitAncestor
  else none

/-- An exact-name matcher standing in for micromatch. -/
def containsMatch : String → List String → Bool := fun f pats => pats.contains f

/-- An older successful run over the ancestor tree. -/
def c3RunTA : WorkflowRun :=
  { id := 11, runNumber := 1, event := WorkflowRunTrigger.push, treeHash := "TA",
    commitHash := "ca", status := some WorkflowRunStatus.completed,
    conclusion := some WorkflowRunConclusion.success, branch := some "main",
    repo := some "o/r", workflowId := 9, createdAt := 100 }

/-- The current run at the head commit. -/
def c3Current : WorkflowRun :=
  { id := 12, runNumber := 2, event := WorkflowRunTrigger.push, treeHash := "t0",
    commitHash := "c0", status := some WorkflowRunStatus.in_progress,
    conclusion := none, branch := some "main",
    repo := some "o/r", workflowId := 9, createdAt := 200 }

/-- Context of the backtracking scenarios. -/
def c3Ctx : Context :=
  { currentRun := c3Current, allRuns := [c3RunTA], olderRuns := [c3RunTA],
    artifactT := fun _ => none }

/-- A filter ignoring the readme. -/
def c3DocsCfg : FilterCfg :=
  { name := docsName, paths_ignore := ["README.md"], paths := [],
    backtracking := Backtracking.bool true }

/-- Inputs with the docs filter. -/
def c3Inputs : Inputs :=
  { paths := [], paths_ignore := [], paths_filter := [c3DocsCfg], do_not_skip := [],
    concurrent_skipping := ConcurrentSkipping.never, cancel_others := false,
    skip_after_successful_duplicates := true }

theorem claim_C3_witness :
    findFilter (backtracePathSkipping c3Store containsMatch c3Ctx c3Inputs).1 docsName =
      some (c3DocsCfg,
        { should_skip := some true, backtrack_count := 1,
          skipped_by := some c3RunTA, matched_files := none }) :=
  (claim_C3 c3Store containsMatch c3Ctx c3Inputs c3Sha c3Commits 1 c3RunTA docsName c3DocsCfg
    (by decide) (by decide) (by decide) (by decide)
    (by
      intro d hd
      have h : d = 0 ∨ d = 1 := by omega
      rcases h with h | h <;> subst h <;> decide)
    (by
      intro d hd
      have h : d = 0 := by omega
      subst h
      decide)
    (fun d h1 h2 => absurd (Nat.lt_of_lt_of_le h2 h1) (Nat.lt_irrefl d))
    (by
      intro d hd
      have h : d = 0 := by omega
      subst h
      decide)
    (by
      intro d hd
      have h : d = 0 := by omega
      subst h
      decide)
    (by decide)).1

/-- A filter with backtracking disabled and a source allow list. -/
def c7DocsCfg : FilterCfg :=
  { name := docsName, paths_ignore := [], paths := ["src"],
    backtracking := Backtracking.bool false }

/-- Inputs with the bounded docs filter. -/
def c7Inputs : Inputs :=
  { paths := [], paths_ignore := [], paths_filter := [c7DocsCfg], do_not_skip := [],
    concurrent_skipping := ConcurrentSkipping.never, cancel_others := false,
    skip_after_successful_duplicates := true }

/-- Context with no other runs at all. -/
def c7Ctx : Context :=
  { currentRun := c3Current, allRuns := [], olderRuns := [], artifactT := fun _ => none }

theorem claim_C7_witness :
    findFilter (backtracePathSkipping c3Store containsMatch c7Ctx c7Inputs).1 docsName =
      some (c7DocsCfg,
        { should_skip := some false, backtrack_count := 1,
          skipped_by := none, matched_files := none }) :=
  claim_C7 c3Store containsMatch c7Ctx c7Inputs c3Sha c3Commits 1 docsName c7DocsCfg
    (by decide) (by decide) (by decide)
    (by
      intro d hd
      have h : d = 0 ∨ d = 1 := by omega
      rcases h with h | h <;> subst h <;> decide)
    (by
      intro d hd
      have h : d = 0 := by omega
      subst h
      decide)
    (by
      intro d h1 h2
      have h : d = 1 := by omega
      subst h
      decide)
    (by decide)
    (by
      intro d hd
      have h : d = 0 := by omega
      subst h
      decide)
    (by
      intro d hd
      have h : d = 0 := by omega
      subst h
      right
      exact ⟨by decide, by decide⟩)

end SkipDup

namespace SkipDup

/-- Claim C5, counterexample: when the very first fetch fails, the walk
stops, but the named docs filter is left with the null verdict in the
reported paths result; it is not resolved to the dont-skip verdict
(should_skip false) the claim requires. -/
theorem claim_C5_counterexample :
    fetchCommitDetails emptyStore (some c3Ctx.currentRun.commitHash) = none ∧
    findFilter (backtracePathSkipping emptyStore containsMatch c3Ctx c3Inputs).1 docsName =
      some (c3DocsCfg, initialFilterState) ∧
    initialFilterState.should_skip = none ∧
    initialFilterState.should_skip ≠ some false := by
  decide

/-- Claim C5, amended: when a fetch fails (or there is no sha left), the
walk stops at once with every filter state unchanged, so still-unresolved
filters stay unresolved (null) and in particular never become skip; and
whenever the global filter ends the walk unresolved, the top-level paths
verdict falls back to dont-skip (false). -/
theorem claim_C5_theorem (store : String → Option Commit) (mm : String → List String → Bool)
    (ctx : Context) (fuel : Nat) (iterSha : Option String) (d : Nat)
    (fs : List (FilterCfg × FilterState)) (acc : List (List String))
    (hfc : fetchCommitDetails store iterSha = none) :
    backtraceLoop store mm ctx fuel iterSha d fs acc = (fs, acc) ∧
    (∀ inputs : Inputs,
      (findFilter (backtracePathSkipping store mm ctx inputs).1 globalName).map
        (fun p => p.2.should_skip) = some none →
      (pathsVerdict store mm inputs ctx).should_skip = false) := by
  constructor
  · cases fuel with
    | zero => exact backtraceLoop_zero store mm ctx iterSha d fs acc
    | succ n => exact backtraceLoop_none store mm ctx n iterSha d fs acc hfc
  · intro inputs hg
    simp only [pathsVerdict]
    cases hf : findFilter (backtracePathSkipping store mm ctx inputs).1 globalName with
    | none =>
      rw [hf] at hg
      exact absurd hg (by simp)
    | some p =>
      rw [hf] at hg
      simp only [Option.map_some', Option.some_inj] at hg
      simp [hg]

theorem claim_C5_witness :
    backtraceLoop emptyStore containsMatch c3Ctx 52 (some "c0") 0
      (initialFilters c3Inputs) [] = (initialFilters c3Inputs, []) ∧
    (pathsVerdict emptyStore containsMatch c3Inputs c3Ctx).should_skip = false :=
  ⟨(claim_C5_theorem emptyStore containsMatch c3Ctx 52 (some "c0") 0
      (initialFilters c3Inputs) [] (by decide)).1,
    (claim_C5_theorem emptyStore containsMatch c3Ctx 52 (some "c0") 0
      (initialFilters c3Inputs) [] (by decide)).2 c3Inputs (by decide)⟩

end SkipDup

namespace SkipDup

/-- A filter is sure to resolve at step e: whatever the shared step data
and its unresolved state are, the step leaves it resolved. -/
def resolvesAt (mm : String → List String → Bool) (cfg : FilterCfg) (e : Nat) : Prop :=
  ∀ (s : Option WorkflowRun) (cf : List String) (st : FilterState),
    st.should_skip = none → ((stepFilter mm s cf e cfg st).should_skip).isSome = true

/-- A filter whose backtracking limit fires at e resolves at e. -/
lemma resolvesAt_of_reached (mm : String → List String → Bool) (cfg : FilterCfg) (e : Nat)
    (h : backtrackingReached cfg.backtracking e = true) : resolvesAt mm cfg e := by
  intro s cf st hunk
  cases s with
  | some R => simp [stepFilter, hunk]
  | none => simp [stepFilter, hunk, h]

/-- A filter with empty deny and allow lists resolves at any step. -/
lemma resolvesAt_of_empty (mm : String → List String → Bool) (cfg : FilterCfg) (e : Nat)
    (hig : cfg.paths_ignore = []) (hp : cfg.paths = []) : resolvesAt mm cfg e := by
  intro s cf st hunk
  cases s with
  | some R => simp [stepFilter, hunk]
  | none =>
    by_cases hb : backtrackingReached cfg.backtracking e = true
    · simp [stepFilter, hunk, hb]
    · simp [stepFilter, hunk, hb, isCommitPathsIgnored, hig, hp]

/-- The walk makes at most 51 - d further iterations from distance d. -/
lemma backtraceLoop_len (store : String → Option Commit) (mm : String → List String → Bool)
    (ctx : Context) :
    ∀ fuel iterSha d fs acc, d ≤ 50 →
      ((backtraceLoop store mm ctx fuel iterSha d fs acc).2).length ≤
        acc.length + (51 - d) := by
  intro fuel
  induction fuel with
  | zero =>
    intro iterSha d fs acc hd
    rw [backtraceLoop_zero]
    dsimp only
    omega
  | succ n ih =>
    intro iterSha d fs acc hd
    cases hfc : fetchCommitDetails store iterSha with
    | none =>
      rw [backtraceLoop_none store mm ctx n iterSha d fs acc hfc]
      dsimp only
      omega
    | some commit =>
      rw [backtraceLoop_some store mm ctx n iterSha d fs acc commit hfc]
      by_cases h50 : 50 ≤ d
      · rw [if_pos h50]
        simp only [List.length_append, List.length_cons, List.length_nil]
        omega
      · rw [if_neg h50]
        by_cases hu : hasUnknownFilters (stepAllFilters mm (successCandidate ctx d commit)
            (commit.files.getD []) d fs) = true
        · rw [if_pos hu]
          have h := ih commit.parents.head? (d + 1)
            (stepAllFilters mm (successCandidate ctx d commit) (commit.files.getD []) d fs)
            (acc ++ [commit.files.getD []]) (by omega)
          simp only [List.length_append, List.length_cons, List.length_nil] at h
          omega
        · rw [if_neg hu]
          simp only [List.length_append, List.length_cons, List.length_nil]
          omega

/-- When every still-unresolved filter is sure to resolve no later than
step B, the walk makes at most B + 1 - d further iterations. -/
lemma backtraceLoop_len_bound (store : String → Option Commit)
    (mm : String → List String → Bool) (ctx : Context) (B : Nat) :
    ∀ fuel iterSha d fs acc, d ≤ B →
      (∀ p ∈ fs, p.2.should_skip = none → ∃ e, d ≤ e ∧ e ≤ B ∧ resolvesAt mm p.1 e) →
      ((backtraceLoop store mm ctx fuel iterSha d fs acc).2).length ≤
        acc.length + (B + 1 - d) := by
  intro fuel
  induction fuel with
  | zero =>
    intro iterSha d fs acc hdB hinv
    rw [backtraceLoop_zero]
    dsimp only
    omega
  | succ n ih =>
    intro iterSha d fs acc hdB hinv
    cases hfc : fetchCommitDetails store iterSha with
    | none =>
      rw [backtraceLoop_none store mm ctx n iterSha d fs acc hfc]
      dsimp only
      omega
    | some commit =>
      rw [backtraceLoop_some store mm ctx n iterSha d fs acc commit hfc]
      have hinv2 : ∀ p ∈ stepAllFilters mm (successCandidate ctx d commit)
          (commit.files.getD []) d fs, p.2.should_skip = none →
          ∃ e, d + 1 ≤ e ∧ e ≤ B ∧ resolvesAt mm p.1 e := by
        intro p hp hpunk
        unfold stepAllFilters at hp
        obtain ⟨q, hq, rfl⟩ := List.mem_map.mp hp
        have hqunk : q.2.should_skip = none := by
          by_contra hqs
          have hsome : q.2.should_skip.isSome := Option.ne_none_iff_isSome.mp hqs
          rw [stepFilter_resolved mm _ _ d q.1 q.2 hsome] at hpunk
          exact hqs hpunk
        obtain ⟨e, hde, heB, hres⟩ := hinv q hq hqunk
        refine ⟨e, ?_, heB, hres⟩
        by_contra hlt
        have he : e = d := by omega
        subst he
        have hcon := hres (successCandidate ctx e commit) (commit.files.getD []) q.2 hqunk
        rw [hpunk] at hcon
        simp at hcon
      by_cases h50 : 50 ≤ d
      · rw [if_pos h50]
        simp only [List.length_append, List.length_cons, List.length_nil]
        omega
      · rw [if_neg h50]
        by_cases hu : hasUnknownFilters (stepAllFilters mm (successCandidate ctx d commit)
            (commit.files.getD []) d fs) = true
        · rw [if_pos hu]
          have hdB2 : d + 1 ≤ B := by
            unfold hasUnknownFilters at hu
            rw [List.any_eq_true] at hu
            obtain ⟨p, hp, hpu⟩ := hu
            have hpunk : p.2.should_skip = none := by
              simpa [Option.isNone_iff_eq_none] using hpu
            obtain ⟨e, hde, heB, _⟩ := hinv2 p hp hpunk
            omega
          have h := ih commit.parents.head? (d + 1)
            (stepAllFilters mm (successCandidate ctx d commit) (commit.files.getD []) d fs)
            (acc ++ [commit.files.getD []]) hdB2 hinv2
          simp only [List.length_append, List.length_cons, List.length_nil] at h
          omega
        · rw [if_neg hu]
          simp only [List.length_append, List.length_cons, List.length_nil]
          omega

/-- A self-looping commit: its first parent fetches the same commit
again, so the ancestry never ends. -/
def ceilCommit : Commit :=
  { treeSha := "t", parents := ["c0"], files := some ["README.md"] }

/-- Store serving the self-looping commit. -/
def ceilStore : String → Option Commit := fun s =>
  if s = "c0" then some ceilCommit else none

/-- Claim C6, counterexample: with an unbounded readme-ignoring filter,
no matching runs and endless ignorable ancestry, the walk runs into the
50-distance ceiling (51 fetched commits) and stops — but the remaining
docs filter is left with the null verdict: it is not forcibly resolved
at the ceiling, neither to dont-skip nor to skip. -/
theorem claim_C6_counterexample :
    (backtracePathSkipping ceilStore containsMatch c7Ctx c3Inputs).2.length = 51 ∧
    findFilter (backtracePathSkipping ceilStore containsMatch c7Ctx c3Inputs).1 docsName =
      some (c3DocsCfg, initialFilterState) ∧
    initialFilterState.should_skip = none ∧
    initialFilterState.should_skip ≠ some false ∧
    initialFilterState.should_skip ≠ some true := by
  decide

/-- Claim C6, amended: the walk always terminates, after at most 51
commit fetches (50 ancestor steps past the starting commit), and when
every configured filter is sure to resolve within B steps it fetches at
most min 50 B + 1 commits; when the distance ceiling fires, the walk
stops right after the step at distance 50 with the stepped filter states
returned as they are, so still-unresolved filters stay unresolved rather
than being forcibly resolved. -/
theorem claim_C6 (store : String → Option Commit) (mm : String → List String → Bool)
    (ctx : Context) (inputs : Inputs) (B : Nat) :
    (backtracePathSkipping store mm ctx inputs).2.length ≤ 51 ∧
    ((∀ cfg ∈ combinedFilters inputs, ∃ e, e ≤ B ∧ resolvesAt mm cfg e) →
      (backtracePathSkipping store mm ctx inputs).2.length ≤ min 50 B + 1) ∧
    (∀ (fuel : Nat) (iterSha : Option String) (d : Nat)
      (fs : List (FilterCfg × FilterState)) (acc : List (List String)) (commit : Commit),
      50 ≤ d → fetchCommitDetails store iterSha = some commit →
      backtraceLoop store mm ctx (fuel + 1) iterSha d fs acc =
        (stepAllFilters mm (successCandidate ctx d commit) (commit.files.getD []) d fs,
          acc ++ [commit.files.getD []])) := by
  have h2 := backtraceLoop_len store mm ctx 52 (some ctx.currentRun.commitHash) 0
    (initialFilters inputs) [] (by omega)
  simp only [List.length_nil] at h2
  refine ⟨?_, ?_, ?_⟩
  · unfold backtracePathSkipping
    omega
  · intro hB
    have hinv : ∀ p ∈ initialFilters inputs, p.2.should_skip = none →
        ∃ e, 0 ≤ e ∧ e ≤ B ∧ resolvesAt mm p.1 e := by
      intro p hp _
      unfold initialFilters at hp
      obtain ⟨c2, hc2, rfl⟩ := List.mem_map.mp hp
      obtain ⟨e, heB, hres⟩ := hB c2 hc2
      exact ⟨e, Nat.zero_le e, heB, hres⟩
    have h1 := backtraceLoop_len_bound store mm ctx B 52 (some ctx.currentRun.commitHash) 0
      (initialFilters inputs) [] (Nat.zero_le B) hinv
    simp only [List.length_nil] at h1
    unfold backtracePathSkipping
    omega
  · intro fuel iterSha d fs acc commit h50 hfc
    rw [backtraceLoop_some store mm ctx fuel iterSha d fs acc commit hfc]
    rw [if_pos h50]

/-- Claim C6, witness: one numerically bounded filter plus the empty
global filter. -/
def c6DocsCfg : FilterCfg :=
  { name := docsName, paths_ignore := [], paths := [],
    backtracking := Backtracking.num 3 }

def c6Inputs : Inputs :=
  { paths := [], paths_ignore := [], paths_filter := [c6DocsCfg], do_not_skip := [],
    concurrent_skipping := ConcurrentSkipping.never, cancel_others := false,
    skip_after_successful_duplicates := true }

theorem claim_C6_witness :
    (backtracePathSkipping emptyStore noMatch witnessCtx c6Inputs).2.length ≤ min 50 3 + 1 ∧
    backtraceLoop ceilStore containsMatch c7Ctx 1 (some "c0") 50
        (initialFilters c3Inputs) [] =
      (stepAllFilters containsMatch (successCandidate c7Ctx 50 ceilCommit)
        (ceilCommit.files.getD []) 50 (initialFilters c3Inputs),
        [] ++ [ceilCommit.files.getD []]) :=
  ⟨(claim_C6 emptyStore noMatch witnessCtx c6Inputs 3).2.1
    (by
      intro cfg hc
      have hlist : combinedFilters c6Inputs = [c6DocsCfg, globalCfg c6Inputs] := by decide
      rw [hlist] at hc
      have hc2 : cfg = c6DocsCfg ∨ cfg = globalCfg c6Inputs := by simpa using hc
      rcases hc2 with rfl | rfl
      · exact ⟨3, by omega, resolvesAt_of_reached noMatch c6DocsCfg 3 (by decide)⟩
      · exact ⟨0, by omega, resolvesAt_of_empty noMatch (globalCfg c6Inputs) 0 rfl rfl⟩),
    (claim_C6 ceilStore containsMatch c7Ctx c3Inputs 0).2.2 0 (some "c0") 50
      (initialFilters c3Inputs) [] ceilCommit (by decide) (by decide)⟩

end SkipDup

namespace SkipDup

/-- Without a successful duplicate, a step never sets the skip verdict. -/
lemma stepFilter_none_not_true (mm : String → List String → Bool) (cf : List String)
    (d : Nat) (cfg : FilterCfg) (st : FilterState) (hunk : st.should_skip = none) :
    (stepFilter mm none cf d cfg st).should_skip ≠ some true := by
  simp only [stepFilter, hunk, Option.isSome_none, Bool.false_eq_true, if_false]
  split_ifs <;> simp [hunk]

/-- One step preserves the invariant that a skip verdict always carries a
causing run. -/
lemma stepFilter_skip_inv (mm : String → List String → Bool) (s : Option WorkflowRun)
    (cf : List String) (d : Nat) (cfg : FilterCfg) (st : FilterState)
    (hinv : st.should_skip = some true → st.skipped_by.isSome)
    (h : (stepFilter mm s cf d cfg st).should_skip = some true) :
    (stepFilter mm s cf d cfg st).skipped_by.isSome := by
  by_cases hr : st.should_skip.isSome
  · rw [stepFilter_resolved mm s cf d cfg st hr] at h ⊢
    exact hinv h
  · have hunk : st.should_skip = none := Option.not_isSome_iff_eq_none.mp hr
    cases s with
    | some R =>
      have hstep : stepFilter mm (some R) cf d cfg st =
          { st with should_skip := some true, skipped_by := some R, backtrack_count := d } := by
        unfold stepFilter
        rw [if_neg hr]
      rw [hstep]
      rfl
    | none => exact absurd h (stepFilter_none_not_true mm cf d cfg st hunk)

/-- The whole walk preserves the skip-carries-cause invariant. -/
lemma backtraceLoop_skip_inv (store : String → Option Commit)
    (mm : String → List String → Bool) (ctx : Context) :
    ∀ fuel iterSha d fs acc,
      (∀ p ∈ fs, p.2.should_skip = some true → p.2.skipped_by.isSome) →
      ∀ p ∈ (backtraceLoop store mm ctx fuel iterSha d fs acc).1,
        p.2.should_skip = some true → p.2.skipped_by.isSome := by
  intro fuel
  induction fuel with
  | zero =>
    intro iterSha d fs acc hinv
    rw [backtraceLoop_zero]
    exact hinv
  | succ n ih =>
    intro iterSha d fs acc hinv
    cases hfc : fetchCommitDetails store iterSha with
    | none =>
      rw [backtraceLoop_none store mm ctx n iterSha d fs acc hfc]
      exact hinv
    | some commit =>
      rw [backtraceLoop_some store mm ctx n iterSha d fs acc commit hfc]
      have hstep : ∀ p ∈ stepAllFilters mm (successCandidate ctx d commit)
          (commit.files.getD []) d fs,
          p.2.should_skip = some true → p.2.skipped_by.isSome := by
        intro p hp
        unfold stepAllFilters at hp
        obtain ⟨q, hq, rfl⟩ := List.mem_map.mp hp
        exact stepFilter_skip_inv mm _ _ d q.1 q.2 (hinv q hq)
      by_cases h50 : 50 ≤ d
      · rw [if_pos h50]
        exact hstep
      · rw [if_neg h50]
        by_cases hu : hasUnknownFilters (stepAllFilters mm (successCandidate ctx d commit)
            (commit.files.getD []) d fs) = true
        · rw [if_pos hu]
          exact ih commit.parents.head? (d + 1) _ _ hstep
        · rw [if_neg hu]
          exact hstep

/-- A paths verdict that skips cites the run recorded by the global
filter. -/
lemma pathsVerdict_skip_inv (store : String → Option Commit)
    (mm : String → List String → Bool) (inputs : Inputs) (ctx : Context)
    (h : (pathsVerdict store mm inputs ctx).should_skip = true) :
    (pathsVerdict store mm inputs ctx).skipped_by.isSome := by
  simp only [pathsVerdict] at h ⊢
  cases hf : findFilter (backtracePathSkipping store mm ctx inputs).1 globalName with
  | none =>
    rw [hf] at h
    simp [initialFilterState] at h
  | some p =>
    rw [hf] at h
    simp only [Option.map_some', Option.getD_some] at h ⊢
    have hskip : p.2.should_skip = some true := by
      cases hss : p.2.should_skip with
      | none =>
        rw [hss] at h
        simp at h
      | some b =>
        rw [hss] at h
        simp only [Option.getD_some] at h
        rw [h]
    have hinit : ∀ q ∈ initialFilters inputs,
        q.2.should_skip = some true → q.2.skipped_by.isSome := by
      intro q hq hcontra
      unfold initialFilters at hq
      obtain ⟨c2, hc2, rfl⟩ := List.mem_map.mp hq
      simp [initialFilterState] at hcontra
    exact backtraceLoop_skip_inv store mm ctx 52 (some ctx.currentRun.commitHash) 0
      (initialFilters inputs) [] hinit p (List.mem_of_find?_eq_some hf) hskip

/-- Claim C10: whenever the emitted verdict skips, a causing run is
recorded in skipped_by, on every exit path of the pipeline. -/
theorem claim_C10 (store : String → Option Commit) (mm : String → List String → Bool)
    (inputs : Inputs) (ctx : Context)
    (h : (runVerdict store mm inputs ctx).should_skip = true) :
    (runVerdict store mm inputs ctx).skipped_by.isSome := by
  unfold runVerdict at h ⊢
  by_cases hdns : ctx.currentRun.event ∈ inputs.do_not_skip
  · rw [if_pos hdns] at h
    exact absurd h (by decide)
  · rw [if_neg hdns] at h ⊢
    cases hdup : (if inputs.skip_after_successful_duplicates then
        findSuccessfulDuplicateRun ctx (effectiveTreeHash ctx ctx.currentRun)
      else none) with
    | some r => rfl
    | none =>
      rw [hdup] at h
      dsimp only at h ⊢
      cases hconc : (if inputs.concurrent_skipping ≠ ConcurrentSkipping.never then
          detectConcurrentRuns inputs ctx
        else none) with
      | some r => rfl
      | none =>
        rw [hconc] at h
        dsimp only at h ⊢
        by_cases hp : 1 ≤ inputs.paths.length ∨ 1 ≤ inputs.paths_ignore.length ∨
            1 ≤ inputs.paths_filter.length
        · rw [if_pos hp] at h ⊢
          exact pathsVerdict_skip_inv store mm inputs ctx h
        · rw [if_neg hp] at h
          exact absurd h (by decide)

theorem claim_C10_witness :
    (runVerdict emptyStore noMatch witnessInputs witnessCtx).skipped_by.isSome :=
  claim_C10 emptyStore noMatch witnessInputs witnessCtx (by decide)

end SkipDup
